import Mathlib

/-!
Verification of the authenticated request engine of the `my_api_client`
Go repository (package `internal/client`).

The Go code is shallowly embedded: every client method that mutates the
`APIClient` receiver is modelled as a pure function that takes the current
client state and returns the (possibly changed) state together with its
result.  The external world (the HTTP transport and the filesystem) is
modelled by explicit input values describing what the corresponding Go
library calls would return; time (`time.Now()`) is an explicit integer
parameter in nanoseconds, matching Go's `time.Duration` unit.

JSON documents are modelled by an inductive `Json` tree.  A response body
is a pair of the raw byte string and the JSON tree it parses to (`none`
when the bytes are not syntactically valid JSON); this pair stands for the
two views the Go code takes of the same bytes via `json.Valid` /
`json.Unmarshal`.
-/

set_option autoImplicit false

namespace MyApiClient

/-- A JSON document (model of what `encoding/json` parses a body into). -/
inductive Json where
  | null
  | boolean (b : Bool)
  | num (n : Int)
  | str (s : String)
  | arr (elems : List Json)
  | obj (fields : List (String × Json))

/-- An HTTP body: the raw bytes together with their JSON parse
(`none` when the bytes are not syntactically valid JSON).  This models the
two views `json.Valid(body)` / `json.Unmarshal(body, ...)` take of the same
bytes. -/
structure Body where
  raw : String
  json : Option Json

/-- ASCII case folding of one code point (`encoding/json` matches struct
field names case-insensitively). -/
def foldCode (n : Nat) : Nat := if 65 ≤ n ∧ n ≤ 90 then n + 32 else n

/-- The case-folded code points of a string. -/
def keyFold (s : String) : List Nat := s.data.map (fun c => foldCode c.toNat)

/-- Case-insensitive equality of two field names. -/
def eqCI (a b : String) : Bool := keyFold a = keyFold b

/-- Field lookup as done by `encoding/json` when filling a Go struct:
an exact key match is preferred, otherwise a case-insensitive match is
accepted. -/
def Json.lookupCI (fields : List (String × Json)) (key : String) : Option Json :=
  match fields.find? (fun p => p.1 = key) with
  | some p => some p.2
  | none => (fields.find? (fun p => eqCI p.1 key)).map (fun p => p.2)

/-- Decoding a `string` Go struct field from a JSON object:
a missing key or a JSON `null` leaves the zero value `""`,
a JSON string yields that string, any other value is a decode error
(modelled as `none`). -/
def getStrField (fields : List (String × Json)) (key : String) : Option String :=
  match Json.lookupCI fields key with
  | none => some ""
  | some (Json.str s) => some s
  | some Json.null => some ""
  | some _ => none

/-- Decoding a `bool` Go struct field from a JSON object (same conventions
as `getStrField`). -/
def getBoolField (fields : List (String × Json)) (key : String) : Option Bool :=
  match Json.lookupCI fields key with
  | none => some false
  | some (Json.boolean b) => some b
  | some Json.null => some false
  | some _ => none

/-- One minute in Go `time.Duration` units (nanoseconds). -/
def nsPerMinute : Int := 60 * 1000000000

/-- The mutable fields of `APIClient` (models.go).  The HTTP client handle,
the mutex, the logger and the immutable credential configuration carry no
information observable by the modelled behaviour and are omitted; the mutex
is modelled by the sequential composition of the critical sections it
serializes. -/
structure ClientState where
  accessToken : String
  instanceURL : String
  tokenExpiry : Int
  caseID : String
deriving Repr, DecidableEq

/-- `AuthResponse` (models.go): the token-endpoint success body. -/
structure AuthResponse where
  accessToken : String
  instanceURL : String
  id : String
  tokenType : String
  issuedAt : String
  signature : String
deriving Repr, DecidableEq

/-- `AuthError` (referenced by auth.go): the token-endpoint failure body
`{error, error_description}`. -/
structure AuthError where
  error : String
  errorDescription : String
deriving Repr, DecidableEq

/-- What the outside world answers to one HTTP exchange attempted by the
client: request construction may fail, the transport may fail, or a
response arrives with a status code, a status line, a body (whose read may
fail) and headers. -/
inductive HttpNet where
  | createReqError
  | transportError
  | response (code : Nat) (status : String) (readFails : Bool) (body : Body)
      (headers : List (String × List String))

/-- `json.Unmarshal(body, &authResp)` for the `AuthResponse` struct:
fails unless the body is valid JSON and is an object (or `null`) whose
fields decode to the struct's field types. -/
def decodeAuthResponse (j : Option Json) : Option AuthResponse :=
  match j with
  | some (Json.obj fs) =>
    match getStrField fs "access_token", getStrField fs "instance_url",
          getStrField fs "id", getStrField fs "token_type",
          getStrField fs "issued_at", getStrField fs "signature" with
    | some a, some i, some d, some t, some s, some g => some ⟨a, i, d, t, s, g⟩
    | _, _, _, _, _, _ => none
  | some Json.null => some ⟨"", "", "", "", "", ""⟩
  | _ => none

/-- `json.Unmarshal(body, &authError)` for the `AuthError` struct. -/
def decodeAuthError (j : Option Json) : Option AuthError :=
  match j with
  | some (Json.obj fs) =>
    match getStrField fs "error", getStrField fs "error_description" with
    | some e, some d => some ⟨e, d⟩
    | _, _ => none
  | some Json.null => some ⟨"", ""⟩
  | _ => none

/-- `authenticate` (auth.go, lines 16-112).  `now` is the value of
`time.Now()` and `net` is what the token endpoint answers.  The Go method
mutates the receiver only in the one success branch; every other branch
returns an error with the receiver untouched, which the state component
records. -/
def authenticate (now : Int) (st : ClientState) (net : HttpNet) :
    Option String × ClientState :=
  match net with
  | HttpNet.createReqError => (some "failed to create auth request", st)
  | HttpNet.transportError => (some "auth request failed", st)
  | HttpNet.response code status readFails body _ =>
    if readFails then (some "failed to read auth response", st)
    else if code ≠ 200 then
      match decodeAuthError body.json with
      | some ae =>
        if ae.error ≠ "" then
          (some ("auth failed: " ++ ae.error ++ " - " ++ ae.errorDescription), st)
        else (some ("auth failed with status: " ++ status), st)
      | none => (some ("auth failed with status: " ++ status), st)
    else
      match decodeAuthResponse body.json with
      | none => (some "failed to decode auth response", st)
      | some ar =>
        (none,
         { st with
            accessToken := ar.accessToken
            instanceURL := ar.instanceURL
            tokenExpiry := now + 55 * nsPerMinute })

/-- `getValidToken` (auth.go, lines 115-126).  The trailing `Nat` counts
how many authentication exchanges the call performed (0 or 1). -/
def getValidToken (now : Int) (st : ClientState) (net : HttpNet) :
    Except String String × ClientState × Nat :=
  if st.accessToken = "" ∨ st.tokenExpiry - now < 5 * nsPerMinute then
    match authenticate now st net with
    | (some e, st1) => (Except.error e, st1, 1)
    | (none, st1) => (Except.ok st1.accessToken, st1, 1)
  else (Except.ok st.accessToken, st, 0)

/-- `forceTokenRefresh` (auth.go, lines 250-258): clears the token and the
expiry, then authenticates unconditionally. -/
def forceTokenRefresh (now : Int) (st : ClientState) (net : HttpNet) :
    Option String × ClientState :=
  authenticate now { st with accessToken := "", tokenExpiry := 0 } net

/-- `Response` (models.go): the envelope built by the lenient dispatch
path.  `data` models the `json.RawMessage` field: it is populated (with the
very body) only when the body is valid JSON, and stays `none` otherwise. -/
structure Response where
  success : Bool
  code : Nat
  status : String
  raw : String
  data : Option Body
  headers : List (String × String)

/-- The `data interface{}` argument of the dispatch functions, abstracted
to the three cases the code distinguishes: a nil value, a value on which
`json.Marshal` fails, and a value that marshals fine.  The marshalled bytes
themselves influence no modelled observable and are not carried. -/
inductive Payload where
  | nil
  | marshalFail
  | ok
deriving Repr, DecidableEq

/-- The body-marshalling step of `Request` (auth.go, lines 139-151):
marshalling is attempted only when the payload is non-nil and the method is
POST, PUT or PATCH; `none` is the marshal failure. -/
def marshalStep (method : String) (payload : Payload) : Option Unit :=
  if payload ≠ Payload.nil ∧ (method = "POST" ∨ method = "PUT" ∨ method = "PATCH") then
    match payload with
    | Payload.marshalFail => none
    | _ => some ()
  else some ()

/-- The header conversion of `Request` (auth.go, lines 206-211): keep only
the first value of each header name. -/
def firstHeaderValues (hs : List (String × List String)) : List (String × String) :=
  hs.filterMap (fun p =>
    match p.2 with
    | [] => none
    | v :: _ => some (p.1, v))

/-- The result of one run of a dispatch function: the envelope (when one
was built), the error (Go returns envelope and error independently), the
final client state, the number of times the HTTP exchange for the request
itself was executed, and whether a forced token refresh was attempted. -/
structure RequestOut where
  resp : Option Response
  err : Option String
  state : ClientState
  httpCalls : Nat
  refreshAttempted : Bool

/-- The envelope built from a received response (auth.go, lines 205-225). -/
def mkEnvelope (code : Nat) (status : String) (body : Body)
    (respHeaders : List (String × List String)) : Response :=
  { success := decide (200 ≤ code ∧ code < 300)
    code := code
    status := status
    raw := body.raw
    data := if body.json.isSome then some body else none
    headers := firstHeaderValues respHeaders }

/-- `Request` (auth.go, lines 128-247) — the lenient dispatch path as it
stands in auth.go.  `authNet` is what the token endpoint would answer the
validity gate, `net` what the target endpoint answers the request itself,
and `refreshNet` what the token endpoint would answer a 401-triggered
forced refresh.  On a 401 the refresh is attempted and its error is only
logged (swallowed). -/
def Request (now : Int) (st : ClientState) (authNet : HttpNet)
    (path method : String) (payload : Payload)
    (headers : List (String × String)) (net refreshNet : HttpNet) : RequestOut :=
  match getValidToken now st authNet with
  | (Except.error e, st1, _) =>
    ⟨none, some ("failed to get valid token: " ++ e), st1, 0, false⟩
  | (Except.ok _token, st1, _) =>
    match marshalStep method payload with
    | none => ⟨none, some "failed to marshal request data", st1, 0, false⟩
    | some _ =>
      match net with
      | HttpNet.createReqError =>
        ⟨none, some "failed to create request", st1, 0, false⟩
      | HttpNet.transportError =>
        ⟨none, some "request failed", st1, 1, false⟩
      | HttpNet.response code status readFails body respHeaders =>
        if readFails then
          ⟨none, some "failed to read response body", st1, 1, false⟩
        else
          let response := mkEnvelope code status body respHeaders
          if code = 401 then
            let r := forceTokenRefresh now st1 refreshNet
            ⟨some response, none, r.2, 1, true⟩
          else
            ⟨some response, none, st1, 1, false⟩

/-- The second `Request` present in the source, appended at the end of
client_test.go (lines 885-968).  Identical to the auth.go version except in
the 401 branch: a failure of the forced refresh is returned to the caller
alongside the envelope instead of being swallowed. -/
def RequestTestFile (now : Int) (st : ClientState) (authNet : HttpNet)
    (path method : String) (payload : Payload)
    (headers : List (String × String)) (net refreshNet : HttpNet) : RequestOut :=
  match getValidToken now st authNet with
  | (Except.error e, st1, _) =>
    ⟨none, some ("failed to get valid token: " ++ e), st1, 0, false⟩
  | (Except.ok _token, st1, _) =>
    match marshalStep method payload with
    | none => ⟨none, some "failed to marshal request data", st1, 0, false⟩
    | some _ =>
      match net with
      | HttpNet.createReqError =>
        ⟨none, some "failed to create request", st1, 0, false⟩
      | HttpNet.transportError =>
        ⟨none, some "request failed", st1, 1, false⟩
      | HttpNet.response code status readFails body respHeaders =>
        if readFails then
          ⟨none, some "failed to read response body", st1, 1, false⟩
        else
          let response := mkEnvelope code status body respHeaders
          if code = 401 then
            match forceTokenRefresh now st1 refreshNet with
            | (some e, st2) =>
              ⟨some response, some ("token refresh failed: " ++ e), st2, 1, true⟩
            | (none, st2) =>
              ⟨some response, none, st2, 1, true⟩
          else
            ⟨some response, none, st1, 1, false⟩

/-- `ErrorResponse` (models.go, lines 58-63): the normalized error shape
`{message, errorCode, fields?}`.  A missing `fields` key is the Go nil
slice, modelled as `[]`. -/
structure ErrorResponse where
  message : String
  errorCode : String
  fields : List String
deriving Repr, DecidableEq

/-- Decoding a `[]string` Go struct field (the optional `fields`). -/
def getStrListField (fields : List (String × Json)) (key : String) :
    Option (List String) :=
  match Json.lookupCI fields key with
  | none => some []
  | some Json.null => some []
  | some (Json.arr xs) =>
    xs.mapM (fun x =>
      match x with
      | Json.str s => some s
      | _ => none)
  | some _ => none

/-- Decoding one error object `{message, errorCode, fields?}`. -/
def decodeErrorObj (j : Json) : Option ErrorResponse :=
  match j with
  | Json.obj fs =>
    match getStrField fs "message", getStrField fs "errorCode",
          getStrListField fs "fields" with
    | some m, some c, some f => some ⟨m, c, f⟩
    | _, _, _ => none
  | Json.null => some ⟨"", "", []⟩
  | _ => none

/-- Modelled from the spec: the decode step that fills an `ErrorResponse`
from a failing body on the strict dispatch path.  The models.go under src
is an incomplete snapshot of the repository's models file (the types
`AuthError` and `AttachmentResponse` that auth.go and client.go use are
absent from it, and its one-argument `NewLogger` contradicts the test
files), and the custom decoding of `ErrorResponse` is part of the missing
code: the repository's own test `TestAPIClient_doRequest` feeds the strict
path a JSON *array* error body and expects it classified.  Following spec
4.6 and design note 9: try a JSON array whose first element matches
`{message, errorCode, fields?}` first, then a single such object; anything
else (unparseable body, empty array, mismatched fields) is a parse error
(`none`). -/
def classify (j : Option Json) : Option ErrorResponse :=
  match j with
  | none => none
  | some (Json.arr []) => none
  | some (Json.arr (x :: _)) => decodeErrorObj x
  | some x => decodeErrorObj x

/-- The `*http.Response` handed back by the strict dispatch path on a
non-error status: what the caller still needs of it. -/
structure HttpResp where
  code : Nat
  status : String
  readFails : Bool
  body : Body

/-- The error produced by the strict path for a status `≥ 400` (client.go,
lines 65-86 and 215-239): classified when the body decodes as an
`ErrorResponse`, the bare status line otherwise.  A body whose read fails
makes the decoder fail, hence the bare status line. -/
def strictStatusError (status : String) (readFails : Bool) (body : Body) :
    String :=
  if readFails then "request failed with status: " ++ status
  else
    match classify body.json with
    | none => "request failed with status: " ++ status
    | some er =>
      "API error: " ++ er.message ++ " (code: " ++ er.errorCode ++ ")"

/-- `doRequest` (client.go, lines 29-89) — the strict dispatch path.
Unlike the lenient path it raises an error on every status `≥ 400` and has
no 401 policy. -/
def doRequest (now : Int) (st : ClientState) (authNet : HttpNet)
    (method path : String) (payload : Payload) (net : HttpNet) :
    Except String HttpResp × ClientState :=
  match getValidToken now st authNet with
  | (Except.error e, st1, _) => (Except.error ("failed to get token: " ++ e), st1)
  | (Except.ok _token, st1, _) =>
    match (match payload with
           | Payload.nil => some ()
           | Payload.marshalFail => none
           | Payload.ok => some ()) with
    | none => (Except.error "failed to marshal request body", st1)
    | some _ =>
      match net with
      | HttpNet.createReqError => (Except.error "failed to create request", st1)
      | HttpNet.transportError => (Except.error "request failed", st1)
      | HttpNet.response code status readFails body _ =>
        if code ≥ 400 then
          (Except.error (strictStatusError status readFails body), st1)
        else (Except.ok ⟨code, status, readFails, body⟩, st1)

/-- `doRequestWithHeaders` (client.go, lines 160-242): the strict path with
caller-supplied headers.  The headers only decorate the outbound request,
which has no modelled observable, so the pipeline coincides with
`doRequest` apart from them. -/
def doRequestWithHeaders (now : Int) (st : ClientState) (authNet : HttpNet)
    (method path : String) (payload : Payload)
    (customHeaders : List (String × String)) (net : HttpNet) :
    Except String HttpResp × ClientState :=
  match getValidToken now st authNet with
  | (Except.error e, st1, _) => (Except.error ("failed to get token: " ++ e), st1)
  | (Except.ok _token, st1, _) =>
    match (match payload with
           | Payload.nil => some ()
           | Payload.marshalFail => none
           | Payload.ok => some ()) with
    | none => (Except.error "failed to marshal request body", st1)
    | some _ =>
      match net with
      | HttpNet.createReqError => (Except.error "failed to create request", st1)
      | HttpNet.transportError => (Except.error "request failed", st1)
      | HttpNet.response code status readFails body _ =>
        if code ≥ 400 then
          (Except.error (strictStatusError status readFails body), st1)
        else (Except.ok ⟨code, status, readFails, body⟩, st1)

/-- `Case` (models.go, lines 22-43): all fields are strings. -/
structure Case where
  id : String
  subject : String
  description : String
  status : String
  priority : String
  origin : String
  recordTypeId : String
  accountId : String
  contactId : String
  suppliedName : String
  suppliedEmail : String
  suppliedCountry : String
  suppliedPhone : String
  ipAddress : String
  severity : String
  product : String
  operatingSystem : String
  webQueueEmail : String
  webURL : String
  type : String
deriving Repr, DecidableEq

/-- The json keys of the `Case` struct's fields, in field order
(models.go tags). -/
def caseKeys : List String :=
  ["Id", "Subject", "Description", "Status", "Priority", "Origin",
   "RecordTypeId", "AccountId", "ContactId", "SuppliedName", "SuppliedEmail",
   "SuppliedCountry__c", "SuppliedPhone", "IP_Address__c", "Severity__c",
   "Product__c", "Operating_System__c", "Web_Queue_Email__c", "Web_URL__c",
   "type"]

/-- The string a field decodes to when decoding succeeds. -/
def strGet (fs : List (String × Json)) (key : String) : String :=
  (getStrField fs key).getD ""

/-- `json.Unmarshal(body, &result)` for the `Case` struct, with the json
tags of models.go: the unmarshal fails iff some present field has the
wrong type, and a missing field keeps the zero value `""`. -/
def decodeCase (j : Option Json) : Option Case :=
  match j with
  | some (Json.obj fs) =>
    if caseKeys.all (fun k => (getStrField fs k).isSome) then
      some ⟨strGet fs "Id", strGet fs "Subject", strGet fs "Description",
            strGet fs "Status", strGet fs "Priority", strGet fs "Origin",
            strGet fs "RecordTypeId", strGet fs "AccountId",
            strGet fs "ContactId", strGet fs "SuppliedName",
            strGet fs "SuppliedEmail", strGet fs "SuppliedCountry__c",
            strGet fs "SuppliedPhone", strGet fs "IP_Address__c",
            strGet fs "Severity__c", strGet fs "Product__c",
            strGet fs "Operating_System__c", strGet fs "Web_Queue_Email__c",
            strGet fs "Web_URL__c", strGet fs "type"⟩
    else none
  | some Json.null =>
    some ⟨"", "", "", "", "", "", "", "", "", "", "", "", "", "", "", "", "",
          "", "", ""⟩
  | _ => none

/-- `SetCaseID` (models.go, lines 155-159): the setter ignores the empty
string. -/
def SetCaseID (st : ClientState) (caseID : String) : ClientState :=
  if caseID ≠ "" then { st with caseID := caseID } else st

/-- `GetCaseID` (models.go, lines 162-164). -/
def GetCaseID (st : ClientState) : String :=
  st.caseID

/-- `CaseHeaders` (models.go, lines 46-49). -/
structure CaseHeaders where
  sforceAssignmentRuleHeader : String
  sforceEmailHeader : String
deriving Repr, DecidableEq

/-- The request-header preparation of `CreateCase` (client.go, lines
93-106): `Content-Type` plus each optional Sforce header when non-empty. -/
def caseReqHeaders (headers : Option CaseHeaders) : List (String × String) :=
  [("Content-Type", "application/json")] ++
  (match headers with
   | none => []
   | some h =>
     (if h.sforceAssignmentRuleHeader ≠ "" then
        [("Sforce-Assignment-Rule-Header", h.sforceAssignmentRuleHeader)]
      else []) ++
     (if h.sforceEmailHeader ≠ "" then
        [("Sforce-Email-Header", h.sforceEmailHeader)]
      else []))

/-- `CreateCase` (client.go, lines 92-157).  A `Case` value marshals
without error in Go (all fields are strings), so the payload is
`Payload.ok`.  On success the decoded id, when non-empty, is saved to the
session case-ID via `SetCaseID`. -/
def CreateCase (now : Int) (st : ClientState) (authNet : HttpNet)
    (headers : Option CaseHeaders) (net : HttpNet) :
    Except String Case × ClientState :=
  match doRequestWithHeaders now st authNet "POST"
      "/services/data/v64.0/sobjects/Case/" Payload.ok
      (caseReqHeaders headers) net with
  | (Except.error e, st1) => (Except.error ("failed to create case: " ++ e), st1)
  | (Except.ok resp, st1) =>
    if resp.readFails then (Except.error "failed to read response body", st1)
    else
      match decodeCase resp.body.json with
      | none => (Except.error "failed to decode response", st1)
      | some result =>
        if result.id ≠ "" then (Except.ok result, SetCaseID st1 result.id)
        else (Except.ok result, st1)

/-- Modelled from the spec: `AttachmentResponse`, the type client.go
unmarshals an attachment-upload response into.  Its declaration is part of
the models code missing from src (client.go uses it, models.go does not
declare it); spec 4.7 names its shape `{id, success, errors[]}` and the
repository's upload test answers with exactly those keys. -/
structure AttachmentResponse where
  id : String
  success : Bool
  errors : List ErrorResponse
deriving Repr, DecidableEq

/-- Decoding a `[]ErrorResponse` Go struct field. -/
def getErrListField (fields : List (String × Json)) (key : String) :
    Option (List ErrorResponse) :=
  match Json.lookupCI fields key with
  | none => some []
  | some Json.null => some []
  | some (Json.arr xs) => xs.mapM decodeErrorObj
  | some _ => none

/-- `json.Unmarshal(res.Data, &apiResponse)` for `AttachmentResponse`. -/
def decodeAttachmentResponse (j : Option Json) : Option AttachmentResponse :=
  match j with
  | some (Json.obj fs) =>
    match getStrField fs "id", getBoolField fs "success",
          getErrListField fs "errors" with
    | some i, some s, some e => some ⟨i, s, e⟩
    | _, _, _ => none
  | some Json.null => some ⟨"", false, []⟩
  | _ => none

/-- What the filesystem answers the checks `UploadAttachment` performs on
its file argument, in the order the code performs them. -/
structure FileState where
  onDisk : Bool
  openOk : Bool
  statOk : Bool
  size : Nat
  readOk : Bool
deriving Repr, DecidableEq

/-- `filepath.Base`: the last non-empty path component. -/
def filepathBase (p : String) : String :=
  match ((p.splitOn "/").filter (fun s => s ≠ "")).getLast? with
  | some c => c
  | none => if p = "" then "." else "/"

/-- The success value `UploadAttachment` returns: the map
`{"success": true, "data": {"id", "name", "size"}}`. -/
structure UploadResult where
  id : String
  name : String
  size : Nat
deriving Repr, DecidableEq

/-- The result of one `UploadAttachment` run: the outcome, the final
client state, and whether the dispatch path (and hence any network
exchange) was ever entered. -/
structure UploadOut where
  result : Except String UploadResult
  state : ClientState
  requested : Bool

/-- The error message of the size gate (client.go, line 374). -/
def sizeLimitError (size : Nat) : String :=
  "file size exceeds 25MB limit: " ++ toString size ++ " bytes"

/-- The part of `UploadAttachment` that inspects what the lenient dispatch
path returned (client.go, lines 405-467): error check, status check, parse
of the nested `{id, success, errors[]}` shape, surfacing the first error
on `success=false`. -/
def uploadAfterRequest (filePath : String) (fileSize : Nat)
    (out : RequestOut) : Except String UploadResult :=
  match out.err, out.resp with
  | some e, _ => Except.error ("API request failed: " ++ e)
  | none, none =>
    -- unreachable: `Request` yields an envelope whenever it yields no error
    Except.error "API request failed: "
  | none, some res =>
    if res.code ≥ 400 then
      Except.error ("attachment upload failed with status: " ++ res.status)
    else
      match res.data with
      | none => Except.error "failed to parse API response"
      | some b =>
        match decodeAttachmentResponse b.json with
        | none => Except.error "failed to parse API response"
        | some ar =>
          if ¬ar.success then
            Except.error
              (match ar.errors with
               | [] => "Salesforce API error"
               | e :: _ =>
                 "Salesforce API error: " ++ e.message ++ " (code: " ++
                   e.errorCode ++ ")")
          else
            Except.ok ⟨ar.id, filepathBase filePath, fileSize⟩

/-- `UploadAttachment` (client.go, lines 336-468).  Local validations run
first, in source order; only when all pass is the lenient dispatch path
`Request` entered (with the base64 payload, which always marshals, hence
`Payload.ok`), whence `requested := true`. -/
def UploadAttachment (now : Int) (st : ClientState) (authNet : HttpNet)
    (parentID filePath : String) (fileSt : FileState)
    (net refreshNet : HttpNet) : UploadOut :=
  if parentID = "" then ⟨Except.error "parent ID is required", st, false⟩
  else if filePath = "" then ⟨Except.error "file path is required", st, false⟩
  else if ¬fileSt.onDisk then
    ⟨Except.error ("file does not exist: " ++ filePath), st, false⟩
  else if ¬fileSt.openOk then
    ⟨Except.error ("failed to open file " ++ filePath), st, false⟩
  else if ¬fileSt.statOk then
    ⟨Except.error "failed to get file info", st, false⟩
  else if fileSt.size > 25 * 1024 * 1024 then
    ⟨Except.error (sizeLimitError fileSt.size), st, false⟩
  else if ¬fileSt.readOk then
    ⟨Except.error "failed to read file", st, false⟩
  else
    let out := Request now st authNet "/services/data/v58.0/sobjects/Attachment/"
      "POST" Payload.ok [] net refreshNet
    ⟨uploadAfterRequest filePath fileSt.size out, out.state, true⟩

/-- `n` concurrent callers of the token-validity gate.  The gate's mutex
admits them into the critical section one at a time, so the concurrent
execution is modelled by its serialization: each caller runs
`getValidToken` on the state the previous one left.  All callers run
"simultaneously", i.e. at the same `now`, against the same token
endpoint.  Returned: the final state, the total number of authentication
exchanges, and every caller's result in order. -/
def serveCallers (now : Int) (net : HttpNet) :
    Nat → ClientState → ClientState × Nat × List (Except String String)
  | 0, st => (st, 0, [])
  | n + 1, st =>
    match getValidToken now st net with
    | (r, st1, k) =>
      match serveCallers now net n st1 with
      | (st2, m, rs) => (st2, k + m, r :: rs)

/-- A client operation that can touch the session case-ID: an explicit
`SetCaseID` call, or a `CreateCase` call (whose inputs are the world it
runs against). -/
inductive ClientOp where
  | setCaseID (s : String)
  | createCase (now : Int) (authNet : HttpNet) (headers : Option CaseHeaders)
      (net : HttpNet)

/-- The state after one client operation. -/
def runOp (st : ClientState) (op : ClientOp) : ClientState :=
  match op with
  | ClientOp.setCaseID s => SetCaseID st s
  | ClientOp.createCase now authNet headers net =>
    (CreateCase now st authNet headers net).2

/-- The state after a sequence of client operations. -/
def runOps (st : ClientState) (ops : List ClientOp) : ClientState :=
  ops.foldl runOp st

/-- The condition singled out by the design notes: the dispatched call came
back 401 and the forced token refresh it triggered failed.  This is the one
execution on which the two `Request` versions in the source differ. -/
def Hit401Fail (now : Int) (st : ClientState) (authNet : HttpNet)
    (method : String) (payload : Payload) (net refreshNet : HttpNet) : Prop :=
  (∃ t, (getValidToken now st authNet).1 = Except.ok t) ∧
  marshalStep method payload ≠ none ∧
  (∃ status body hdrs, net = HttpNet.response 401 status false body hdrs) ∧
  (forceTokenRefresh now (getValidToken now st authNet).2.1 refreshNet).1 ≠ none

/-- A client state holding a token far from expiry (sample input). -/
def stValid : ClientState := ⟨"tok", "inst-url", 10 * nsPerMinute, "caseA"⟩

/-- A client state with no token (sample input). -/
def stEmpty : ClientState := ⟨"", "", 0, "caseA"⟩

/-- A token-endpoint success body (sample input; the raw bytes are opaque). -/
def authBodyOk : Body :=
  ⟨"auth-ok-raw",
   some (Json.obj [("access_token", Json.str "t2"),
                   ("instance_url", Json.str "i2")])⟩

/-- A token endpoint that answers `authBodyOk` with status 200. -/
def authNetOk : HttpNet := HttpNet.response 200 "200 OK" false authBodyOk []

/-- A plain JSON body (sample input). -/
def plainBody : Body := ⟨"plain-raw", some (Json.str "plain")⟩

/-- A case-creation response body carrying a lower-case `id` key, as the
provider answers it (sample input). -/
def caseBody500X : Body :=
  ⟨"case-raw",
   some (Json.obj [("id", Json.str "500X"), ("success", Json.boolean true)])⟩

/-- The `Case` value `caseBody500X` decodes to (sample input). -/
def case500X : Case :=
  ⟨"500X", "", "", "", "", "", "", "", "", "", "", "", "", "", "", "", "",
   "", "", ""⟩

/-! ## Helper lemmas -/

theorem authenticate_state_cases (now : Int) (st : ClientState) (net : HttpNet) :
    (authenticate now st net).2 = st ∨
    ∃ ar : AuthResponse, (authenticate now st net) =
      (none,
       { st with
          accessToken := ar.accessToken
          instanceURL := ar.instanceURL
          tokenExpiry := now + 55 * nsPerMinute }) := by
  cases net with
  | createReqError => exact Or.inl rfl
  | transportError => exact Or.inl rfl
  | response code status readFails body hdrs =>
    by_cases hr : readFails = true
    · subst hr; exact Or.inl rfl
    · rw [Bool.not_eq_true] at hr
      subst hr
      by_cases hc : code = 200
      · subst hc
        cases har : decodeAuthResponse body.json with
        | none => simp [authenticate, har]
        | some ar => exact Or.inr ⟨ar, by simp [authenticate, har]⟩
      · cases hae : decodeAuthError body.json with
        | none => simp [authenticate, hc, hae]
        | some ae =>
          by_cases he : ae.error = ""
          · simp [authenticate, hc, hae, he]
          · simp [authenticate, hc, hae, he]

theorem authenticate_caseID (now : Int) (st : ClientState) (net : HttpNet) :
    (authenticate now st net).2.caseID = st.caseID := by
  rcases authenticate_state_cases now st net with h | ⟨ar, h⟩
  · rw [h]
  · rw [h]

theorem authenticate_error_state (now : Int) (st : ClientState) (net : HttpNet)
    (e : String) (st' : ClientState)
    (h : authenticate now st net = (some e, st')) : st' = st := by
  rcases authenticate_state_cases now st net with h0 | ⟨ar, h0⟩
  · have : (authenticate now st net).2 = st' := by rw [h]
    rw [h0] at this; exact this.symm
  · rw [h0] at h
    exact absurd (congrArg Prod.fst h) (by simp)

theorem firstHeaderValues_heads (hs : List (String × List String)) :
    firstHeaderValues hs =
      hs.filterMap (fun p => (p.2.head?).map (fun v => (p.1, v))) := by
  unfold firstHeaderValues
  congr 1
  funext p
  cases p.2 <;> rfl

theorem Request_response (now : Int) (st : ClientState) (authNet : HttpNet)
    (path method : String) (payload : Payload)
    (headers : List (String × String)) (code : Nat) (status : String)
    (body : Body) (respHeaders : List (String × List String))
    (refreshNet : HttpNet) (t : String) (st1 : ClientState) (k : Nat)
    (hg : getValidToken now st authNet = (Except.ok t, st1, k))
    (hm : marshalStep method payload = some ()) :
    Request now st authNet path method payload headers
        (HttpNet.response code status false body respHeaders) refreshNet =
      if code = 401 then
        ⟨some (mkEnvelope code status body respHeaders), none,
         (forceTokenRefresh now st1 refreshNet).2, 1, true⟩
      else
        ⟨some (mkEnvelope code status body respHeaders), none, st1, 1, false⟩ := by
  unfold Request
  rw [hg, hm]
  by_cases hc : code = 401 <;> simp [hc]

theorem getValidToken_caseID (now : Int) (st : ClientState) (net : HttpNet) :
    (getValidToken now st net).2.1.caseID = st.caseID := by
  unfold getValidToken
  split
  · rcases ha : authenticate now st net with ⟨e, st1⟩
    have := authenticate_caseID now st net
    rw [ha] at this
    cases e <;> simpa [ha] using this
  · rfl

/-! ## Claims -/

/-- Claim C1: for every client state and every call to the token-validity
gate `getValidToken`, an authentication exchange is performed if and only
if the stored access token is the empty string or the time remaining until
the stored expiry instant is under 5 minutes; otherwise the currently
stored token is returned unchanged with no authentication attempt. -/
theorem getValidToken_gate (now : Int) (st : ClientState) (net : HttpNet) :
    ((getValidToken now st net).2.2 = 1 ↔
      (st.accessToken = "" ∨ st.tokenExpiry - now < 5 * nsPerMinute)) ∧
    (¬(st.accessToken = "" ∨ st.tokenExpiry - now < 5 * nsPerMinute) →
      getValidToken now st net = (Except.ok st.accessToken, st, 0)) := by
  unfold getValidToken
  split
  · rename_i h
    refine ⟨⟨fun _ => h, fun _ => ?_⟩, fun hn => absurd h hn⟩
    rcases ha : authenticate now st net with ⟨e, st1⟩
    cases e <;> simp [ha]
  · rename_i h
    exact ⟨by simpa using h, fun _ => rfl⟩

/-- Concrete run of `getValidToken_gate`: a client holding a token 10
minutes from expiry answers a call at time 0 with the stored token, the
state untouched and no authentication exchange. -/
theorem getValidToken_gate_witness :
    getValidToken 0 stValid HttpNet.transportError =
      (Except.ok "tok", stValid, 0) :=
  (getValidToken_gate 0 stValid HttpNet.transportError).2 (by decide)

/-- Claim C2: `authenticate` mutates the token store atomically.  On
success the access token and the instance URL are set together from the
same decoded authentication response and the expiry becomes now + 55
minutes (all other state, in particular the session case-ID, untouched);
on any failure an error is returned and the whole state is left unchanged;
consequently a failed refresh inside the validity gate leaves the token
store unchanged. -/
theorem authenticate_atomic (now : Int) (st : ClientState) (net : HttpNet) :
    (∀ st', authenticate now st net = (none, st') →
      ∃ code status body hdrs ar,
        net = HttpNet.response code status false body hdrs ∧ code = 200 ∧
        decodeAuthResponse body.json = some ar ∧
        st' = { st with
                 accessToken := ar.accessToken
                 instanceURL := ar.instanceURL
                 tokenExpiry := now + 55 * nsPerMinute }) ∧
    (∀ e st', authenticate now st net = (some e, st') → st' = st) ∧
    (∀ e st1 k, getValidToken now st net = (Except.error e, st1, k) →
      st1 = st) := by
  refine ⟨?_, fun e st' h => authenticate_error_state now st net e st' h, ?_⟩
  · intro st' h
    cases net with
    | createReqError => exact absurd (congrArg Prod.fst h) (by simp [authenticate])
    | transportError => exact absurd (congrArg Prod.fst h) (by simp [authenticate])
    | response code status readFails body hdrs =>
      by_cases hr : readFails = true
      · subst hr; exact absurd (congrArg Prod.fst h) (by simp [authenticate])
      · rw [Bool.not_eq_true] at hr
        subst hr
        by_cases hc : code = 200
        · subst hc
          cases har : decodeAuthResponse body.json with
          | none =>
            rw [show authenticate now st (HttpNet.response 200 status false body hdrs)
                  = (some "failed to decode auth response", st) by
                simp [authenticate, har]] at h
            exact absurd (congrArg Prod.fst h) (by simp)
          | some ar =>
            refine ⟨200, status, body, hdrs, ar, rfl, rfl, har, ?_⟩
            have := congrArg Prod.snd h
            simpa [authenticate, har] using this.symm
        · cases hae : decodeAuthError body.json with
          | none => exact absurd (congrArg Prod.fst h) (by simp [authenticate, hc, hae])
          | some ae =>
            by_cases he : ae.error = ""
            · exact absurd (congrArg Prod.fst h) (by simp [authenticate, hc, hae, he])
            · exact absurd (congrArg Prod.fst h) (by simp [authenticate, hc, hae, he])
  · intro e st1 k h
    unfold getValidToken at h
    split at h
    · rcases ha : authenticate now st net with ⟨e?, stA⟩
      rw [ha] at h
      cases e? with
      | none => simp at h
      | some e0 =>
        simp only [Prod.mk.injEq] at h
        exact authenticate_error_state now st net e0 stA ha ▸ h.2.1 ▸ rfl
    · simp at h

/-- Concrete run of `authenticate_atomic`: on a 200 answer carrying
`{access_token, instance_url}` the client ends with exactly those two
fields replaced and the expiry at now + 55 minutes. -/
theorem authenticate_atomic_witness :
    ∃ code status body hdrs ar,
      authNetOk = HttpNet.response code status false body hdrs ∧ code = 200 ∧
      decodeAuthResponse body.json = some ar ∧
      (⟨"t2", "i2", 55 * nsPerMinute, "caseA"⟩ : ClientState) =
        { stEmpty with
           accessToken := ar.accessToken
           instanceURL := ar.instanceURL
           tokenExpiry := 0 + 55 * nsPerMinute } :=
  (authenticate_atomic 0 stEmpty authNetOk).1
    ⟨"t2", "i2", 55 * nsPerMinute, "caseA"⟩ (by decide)

/-- Claim C3: every call through the lenient dispatch path `Request` that
receives an HTTP 401 response attempts a forced token refresh and returns
the original 401 envelope (`Success = false`, `Code = 401`) with no error —
in particular no error when the forced refresh succeeds — and never retries
the original request (exactly one HTTP exchange for it). -/
theorem Request_401_swallow (now : Int) (st : ClientState) (authNet : HttpNet)
    (path method : String) (payload : Payload)
    (headers : List (String × String)) (status : String) (body : Body)
    (respHeaders : List (String × List String)) (refreshNet : HttpNet)
    (t : String) (st1 : ClientState) (k : Nat)
    (hg : getValidToken now st authNet = (Except.ok t, st1, k))
    (hm : marshalStep method payload = some ()) :
    Request now st authNet path method payload headers
        (HttpNet.response 401 status false body respHeaders) refreshNet =
      ⟨some (mkEnvelope 401 status body respHeaders), none,
       (forceTokenRefresh now st1 refreshNet).2, 1, true⟩ ∧
    (mkEnvelope 401 status body respHeaders).success = false ∧
    (mkEnvelope 401 status body respHeaders).code = 401 := by
  refine ⟨?_, by simp [mkEnvelope], rfl⟩
  rw [Request_response now st authNet path method payload headers 401 status
        body respHeaders refreshNet t st1 k hg hm]
  simp

/-- Concrete run of `Request_401_swallow`: a 401 answer whose forced
refresh hits a transport failure still comes back as the 401 envelope with
no error. -/
theorem Request_401_swallow_witness :
    Request 0 stValid HttpNet.transportError "/p" "GET" Payload.nil []
        (HttpNet.response 401 "401 Unauthorized" false plainBody [])
        HttpNet.transportError =
      ⟨some (mkEnvelope 401 "401 Unauthorized" plainBody []), none,
       (forceTokenRefresh 0 stValid HttpNet.transportError).2, 1, true⟩ ∧
    (mkEnvelope 401 "401 Unauthorized" plainBody []).success = false ∧
    (mkEnvelope 401 "401 Unauthorized" plainBody []).code = 401 :=
  Request_401_swallow 0 stValid HttpNet.transportError "/p" "GET" Payload.nil
    [] "401 Unauthorized" plainBody [] HttpNet.transportError
    "tok" stValid 0 rfl rfl

/-- Claim C6: for every HTTP response processed by the lenient dispatch
path, the constructed envelope has `Success = true` iff the status code is
in `[200, 300)`, `Raw` holds the body unchanged, `Data` holds exactly the
body when it is valid JSON and stays empty otherwise, and `Headers` maps
each header name to only the first of its values. -/
theorem Request_envelope (now : Int) (st : ClientState) (authNet : HttpNet)
    (path method : String) (payload : Payload)
    (headers : List (String × String)) (code : Nat) (status : String)
    (body : Body) (respHeaders : List (String × List String))
    (refreshNet : HttpNet) (t : String) (st1 : ClientState) (k : Nat)
    (hg : getValidToken now st authNet = (Except.ok t, st1, k))
    (hm : marshalStep method payload = some ()) :
    (Request now st authNet path method payload headers
        (HttpNet.response code status false body respHeaders) refreshNet).resp =
      some (mkEnvelope code status body respHeaders) ∧
    ((mkEnvelope code status body respHeaders).success = true ↔
      (200 ≤ code ∧ code < 300)) ∧
    (mkEnvelope code status body respHeaders).raw = body.raw ∧
    (mkEnvelope code status body respHeaders).data =
      (if body.json.isSome then some body else none) ∧
    (mkEnvelope code status body respHeaders).headers =
      respHeaders.filterMap (fun p => (p.2.head?).map (fun v => (p.1, v))) := by
  refine ⟨?_, by simp [mkEnvelope], rfl, rfl, firstHeaderValues_heads respHeaders⟩
  rw [Request_response now st authNet path method payload headers code status
        body respHeaders refreshNet t st1 k hg hm]
  by_cases hc : code = 401 <;> simp [hc]

/-- Concrete run of `Request_envelope`: a 204 answer with an invalid-JSON
body and a two-valued header. -/
theorem Request_envelope_witness :
    (Request 0 stValid HttpNet.transportError "/p" "GET" Payload.nil []
        (HttpNet.response 204 "204 No Content" false ⟨"not-json", none⟩
          [("X-H", ["v1", "v2"])]) HttpNet.transportError).resp =
      some (mkEnvelope 204 "204 No Content" ⟨"not-json", none⟩
        [("X-H", ["v1", "v2"])]) ∧
    ((mkEnvelope 204 "204 No Content" ⟨"not-json", none⟩
        [("X-H", ["v1", "v2"])]).success = true ↔ (200 ≤ 204 ∧ 204 < 300)) ∧
    (mkEnvelope 204 "204 No Content" ⟨"not-json", none⟩
        [("X-H", ["v1", "v2"])]).raw = "not-json" ∧
    (mkEnvelope 204 "204 No Content" ⟨"not-json", none⟩
        [("X-H", ["v1", "v2"])]).data =
      (if (none : Option Json).isSome then
        some (⟨"not-json", none⟩ : Body) else none) ∧
    (mkEnvelope 204 "204 No Content" ⟨"not-json", none⟩
        [("X-H", ["v1", "v2"])]).headers =
      [("X-H", ["v1", "v2"])].filterMap
        (fun p => (p.2.head?).map (fun v => (p.1, v))) :=
  Request_envelope 0 stValid HttpNet.transportError "/p" "GET" Payload.nil []
    204 "204 No Content" ⟨"not-json", none⟩ [("X-H", ["v1", "v2"])]
    HttpNet.transportError "tok" stValid 0 rfl rfl

/-- Claim C4: the two `Request` versions in the source (auth.go and the
one appended in client_test.go) compute the same envelope, the same final
state, the same number of HTTP exchanges and the same refresh behaviour on
every execution, and the same error result except exactly when the call
came back 401 and the forced refresh failed: there auth.go swallows (no
error) while the client_test.go version propagates an error wrapping the
refresh failure. -/
theorem Request_variants (now : Int) (st : ClientState) (authNet : HttpNet)
    (path method : String) (payload : Payload)
    (headers : List (String × String)) (net refreshNet : HttpNet) :
    (Request now st authNet path method payload headers net refreshNet).resp =
      (RequestTestFile now st authNet path method payload headers net
        refreshNet).resp ∧
    (Request now st authNet path method payload headers net refreshNet).state =
      (RequestTestFile now st authNet path method payload headers net
        refreshNet).state ∧
    (Request now st authNet path method payload headers net
        refreshNet).httpCalls =
      (RequestTestFile now st authNet path method payload headers net
        refreshNet).httpCalls ∧
    (Request now st authNet path method payload headers net
        refreshNet).refreshAttempted =
      (RequestTestFile now st authNet path method payload headers net
        refreshNet).refreshAttempted ∧
    (Hit401Fail now st authNet method payload net refreshNet →
      (Request now st authNet path method payload headers net refreshNet).err =
        none ∧
      (RequestTestFile now st authNet path method payload headers net
        refreshNet).err ≠ none) ∧
    (¬Hit401Fail now st authNet method payload net refreshNet →
      (Request now st authNet path method payload headers net refreshNet).err =
        (RequestTestFile now st authNet path method payload headers net
          refreshNet).err) := by
  rcases hg : getValidToken now st authNet with ⟨r, st1, k⟩
  cases r with
  | error e =>
    have hnot : ¬Hit401Fail now st authNet method payload net refreshNet := by
      rintro ⟨⟨t, ht⟩, -, -, -⟩
      rw [hg] at ht
      exact Except.noConfusion ht
    refine ⟨?_, ?_, ?_, ?_, fun h => absurd h hnot, fun _ => ?_⟩ <;>
      simp [Request, RequestTestFile, hg]
  | ok t =>
    cases hm : marshalStep method payload with
    | none =>
      have hnot : ¬Hit401Fail now st authNet method payload net refreshNet := by
        rintro ⟨-, hm2, -, -⟩
        exact hm2 hm
      refine ⟨?_, ?_, ?_, ?_, fun h => absurd h hnot, fun _ => ?_⟩ <;>
        simp [Request, RequestTestFile, hg, hm]
    | some u =>
      cases u
      cases net with
      | createReqError =>
        have hnot : ¬Hit401Fail now st authNet method payload
            HttpNet.createReqError refreshNet := by
          rintro ⟨-, -, ⟨s, b, hds, hn⟩, -⟩
          exact HttpNet.noConfusion hn
        refine ⟨?_, ?_, ?_, ?_, fun h => absurd h hnot, fun _ => ?_⟩ <;>
          simp [Request, RequestTestFile, hg, hm]
      | transportError =>
        have hnot : ¬Hit401Fail now st authNet method payload
            HttpNet.transportError refreshNet := by
          rintro ⟨-, -, ⟨s, b, hds, hn⟩, -⟩
          exact HttpNet.noConfusion hn
        refine ⟨?_, ?_, ?_, ?_, fun h => absurd h hnot, fun _ => ?_⟩ <;>
          simp [Request, RequestTestFile, hg, hm]
      | response code status readFails body hdrs =>
        cases readFails with
        | true =>
          have hnot : ¬Hit401Fail now st authNet method payload
              (HttpNet.response code status true body hdrs) refreshNet := by
            rintro ⟨-, -, ⟨s, b, hds, hn⟩, -⟩
            injection hn with h1 h2 h3 h4 h5
            exact Bool.noConfusion h3
          refine ⟨?_, ?_, ?_, ?_, fun h => absurd h hnot, fun _ => ?_⟩ <;>
            simp [Request, RequestTestFile, hg, hm]
        | false =>
          by_cases hc : code = 401
          · subst hc
            rcases hf : forceTokenRefresh now st1 refreshNet with ⟨er, st2⟩
            cases er with
            | none =>
              have hnot : ¬Hit401Fail now st authNet method payload
                  (HttpNet.response 401 status false body hdrs) refreshNet := by
                rintro ⟨-, -, -, h4⟩
                rw [hg] at h4
                simp only [hf] at h4
                exact h4 rfl
              refine ⟨?_, ?_, ?_, ?_, fun h => absurd h hnot, fun _ => ?_⟩ <;>
                simp [Request, RequestTestFile, hg, hm, hf]
            | some e2 =>
              have hyes : Hit401Fail now st authNet method payload
                  (HttpNet.response 401 status false body hdrs) refreshNet := by
                refine ⟨⟨t, by rw [hg]⟩, by rw [hm]; simp,
                  ⟨status, body, hdrs, rfl⟩, ?_⟩
                rw [hg]
                simp only [hf]
                simp
              refine ⟨?_, ?_, ?_, ?_, fun _ => ?_, fun hn => absurd hyes hn⟩ <;>
                simp [Request, RequestTestFile, hg, hm, hf]
          · have hnot : ¬Hit401Fail now st authNet method payload
                (HttpNet.response code status false body hdrs) refreshNet := by
              rintro ⟨-, -, ⟨s, b, hds, hn⟩, -⟩
              injection hn with h1 h2 h3 h4 h5
              exact hc h1
            refine ⟨?_, ?_, ?_, ?_, fun h => absurd h hnot, fun _ => ?_⟩ <;>
              simp [Request, RequestTestFile, hg, hm, hc]

/-- Concrete run of `Request_variants` at the one diverging execution: a
401 answer whose forced refresh fails on transport; auth.go returns no
error, the client_test.go version returns one. -/
theorem Request_variants_witness :
    (Request 0 stValid HttpNet.transportError "/p" "GET" Payload.nil []
        (HttpNet.response 401 "401 Unauthorized" false plainBody [])
        HttpNet.transportError).err = none ∧
    (RequestTestFile 0 stValid HttpNet.transportError "/p" "GET" Payload.nil
        [] (HttpNet.response 401 "401 Unauthorized" false plainBody [])
        HttpNet.transportError).err ≠ none :=
  (Request_variants 0 stValid HttpNet.transportError "/p" "GET" Payload.nil
      [] (HttpNet.response 401 "401 Unauthorized" false plainBody [])
      HttpNet.transportError).2.2.2.2.1
    ⟨⟨"tok", rfl⟩, by decide,
     ⟨"401 Unauthorized", plainBody, [], rfl⟩, by decide⟩

/-- Claim C5: the error classifier used by the strict dispatch path yields
the identical ErrorShape (message and machine error code) whether the
failing body is the one-element JSON array holding `{message, errorCode}`
or that single JSON object; in particular the array form is accepted at
all. -/
theorem classify_array_eq_object (m c : String) :
    classify (some (Json.arr [Json.obj [("message", Json.str m),
        ("errorCode", Json.str c)]])) =
      classify (some (Json.obj [("message", Json.str m),
        ("errorCode", Json.str c)])) ∧
    classify (some (Json.arr [Json.obj [("message", Json.str m),
        ("errorCode", Json.str c)]])) = some ⟨m, c, []⟩ := ⟨rfl, rfl⟩

theorem serveCallers_stable (now : Int) (net : HttpNet) (n : Nat)
    (st : ClientState) (h1 : st.accessToken ≠ "")
    (h2 : ¬(st.tokenExpiry - now < 5 * nsPerMinute)) :
    serveCallers now net n st =
      (st, 0, List.replicate n (Except.ok st.accessToken)) := by
  induction n with
  | zero => rfl
  | succ n ih =>
    have hg : getValidToken now st net = (Except.ok st.accessToken, st, 0) := by
      unfold getValidToken
      rw [if_neg (not_or.mpr ⟨h1, h2⟩)]
    simp [serveCallers, hg, ih, List.replicate_succ]

/-- Claim C7: when any number of concurrent callers hit the token-validity
gate simultaneously (same `now`) while the stored token is expired, and the
token endpoint answers with a response carrying a non-empty token, exactly
one authentication exchange occurs and every caller observes the same
refreshed token.  The gate's mutex admits the callers one at a time, so the
concurrent run is modelled by its serialization `serveCallers`. -/
theorem serveCallers_single_auth (now : Int) (st : ClientState)
    (status : String) (body : Body) (hdrs : List (String × List String))
    (ar : AuthResponse) (n : Nat)
    (hexp : st.accessToken = "" ∨ st.tokenExpiry - now < 5 * nsPerMinute)
    (har : decodeAuthResponse body.json = some ar)
    (htok : ar.accessToken ≠ "") :
    serveCallers now (HttpNet.response 200 status false body hdrs) (n + 1) st =
      ({ st with
          accessToken := ar.accessToken
          instanceURL := ar.instanceURL
          tokenExpiry := now + 55 * nsPerMinute }, 1,
       List.replicate (n + 1) (Except.ok ar.accessToken)) := by
  have hA : authenticate now st (HttpNet.response 200 status false body hdrs) =
      (none,
       { st with
          accessToken := ar.accessToken
          instanceURL := ar.instanceURL
          tokenExpiry := now + 55 * nsPerMinute }) := by
    simp [authenticate, har]
  have hg : getValidToken now st (HttpNet.response 200 status false body hdrs) =
      (Except.ok ar.accessToken,
       { st with
          accessToken := ar.accessToken
          instanceURL := ar.instanceURL
          tokenExpiry := now + 55 * nsPerMinute }, 1) := by
    unfold getValidToken
    rw [if_pos hexp, hA]
  have hstable := serveCallers_stable now
    (HttpNet.response 200 status false body hdrs) n
    { st with
       accessToken := ar.accessToken
       instanceURL := ar.instanceURL
       tokenExpiry := now + 55 * nsPerMinute }
    htok (by simp [nsPerMinute])
  simp [serveCallers, hg, hstable, List.replicate_succ]

/-- Concrete run of `serveCallers_single_auth`: three callers at time 0 on
an empty token, one exchange, all three see the refreshed token. -/
theorem serveCallers_single_auth_witness :
    serveCallers 0 authNetOk 3 stEmpty =
      ({ stEmpty with
          accessToken := "t2"
          instanceURL := "i2"
          tokenExpiry := 0 + 55 * nsPerMinute }, 1,
       List.replicate 3 (Except.ok "t2")) :=
  serveCallers_single_auth 0 stEmpty "200 OK" authBodyOk []
    ⟨"t2", "i2", "", "", "", ""⟩ 2 (Or.inl rfl) rfl (by decide)

/-- Claim C8: `UploadAttachment`, called with a non-empty parent ID and a
path to an existing readable regular file, rejects the upload locally with
the size-limit error and without entering the dispatch path exactly when
the file size strictly exceeds 25 MiB = 26214400 bytes; any file of at
most 25 MiB passes the local gates and reaches the dispatch path. -/
theorem UploadAttachment_sizeGate (now : Int) (st : ClientState)
    (authNet : HttpNet) (parentID filePath : String) (fileSt : FileState)
    (net refreshNet : HttpNet)
    (hp : parentID ≠ "") (hf : filePath ≠ "")
    (he : fileSt.onDisk = true) (ho : fileSt.openOk = true)
    (hs : fileSt.statOk = true) (hr : fileSt.readOk = true) :
    (((UploadAttachment now st authNet parentID filePath fileSt net
          refreshNet).result =
        Except.error (sizeLimitError fileSt.size) ∧
      (UploadAttachment now st authNet parentID filePath fileSt net
          refreshNet).requested = false) ↔
      fileSt.size > 26214400) ∧
    (fileSt.size ≤ 26214400 →
      (UploadAttachment now st authNet parentID filePath fileSt net
          refreshNet).requested = true) := by
  have h25 : (25 * 1024 * 1024 : Nat) = 26214400 := by norm_num
  by_cases hsz : fileSt.size > 25 * 1024 * 1024
  · have hval : UploadAttachment now st authNet parentID filePath fileSt net
        refreshNet = ⟨Except.error (sizeLimitError fileSt.size), st, false⟩ := by
      unfold UploadAttachment
      simp [hp, hf, he, ho, hs, hsz]
    rw [h25] at hsz
    refine ⟨⟨fun _ => hsz, fun _ => by rw [hval]; exact ⟨rfl, rfl⟩⟩, ?_⟩
    intro hle
    omega
  · have hval : UploadAttachment now st authNet parentID filePath fileSt net
        refreshNet =
        ⟨uploadAfterRequest filePath fileSt.size
          (Request now st authNet "/services/data/v58.0/sobjects/Attachment/"
            "POST" Payload.ok [] net refreshNet),
         (Request now st authNet "/services/data/v58.0/sobjects/Attachment/"
            "POST" Payload.ok [] net refreshNet).state, true⟩ := by
      unfold UploadAttachment
      simp [hp, hf, he, ho, hs, hsz, hr]
    rw [h25] at hsz
    constructor
    · constructor
      · intro hcontra
        exfalso
        have hreq : (UploadAttachment now st authNet parentID filePath fileSt
            net refreshNet).requested = true := by rw [hval]
        rw [hcontra.2] at hreq
        exact Bool.noConfusion hreq
      · intro hgt
        exact absurd hgt hsz
    · intro _
      rw [hval]

/-- Concrete run of `UploadAttachment_sizeGate`: a 25 MiB + 1 file is
rejected with the size-limit error and no dispatch, a 25 MiB file passes
the local gates and reaches the dispatch path. -/
theorem UploadAttachment_sizeGate_witness :
    ((UploadAttachment 0 stValid HttpNet.transportError "p1" "a.bin"
        ⟨true, true, true, 26214401, true⟩ HttpNet.transportError
        HttpNet.transportError).result =
      Except.error (sizeLimitError 26214401) ∧
     (UploadAttachment 0 stValid HttpNet.transportError "p1" "a.bin"
        ⟨true, true, true, 26214401, true⟩ HttpNet.transportError
        HttpNet.transportError).requested = false) ∧
    (UploadAttachment 0 stValid HttpNet.transportError "p1" "a.bin"
        ⟨true, true, true, 26214400, true⟩ HttpNet.transportError
        HttpNet.transportError).requested = true :=
  ⟨(UploadAttachment_sizeGate 0 stValid HttpNet.transportError "p1" "a.bin"
      ⟨true, true, true, 26214401, true⟩ HttpNet.transportError
      HttpNet.transportError (by decide) (by decide) rfl rfl rfl rfl).1.mpr
    (by norm_num),
   (UploadAttachment_sizeGate 0 stValid HttpNet.transportError "p1" "a.bin"
      ⟨true, true, true, 26214400, true⟩ HttpNet.transportError
      HttpNet.transportError (by decide) (by decide) rfl rfl rfl rfl).2
    (by norm_num)⟩

theorem doRequestWithHeaders_caseID (now : Int) (st : ClientState)
    (authNet : HttpNet) (method path : String) (payload : Payload)
    (customHeaders : List (String × String)) (net : HttpNet) :
    (doRequestWithHeaders now st authNet method path payload customHeaders
      net).2.caseID = st.caseID := by
  unfold doRequestWithHeaders
  rcases hg : getValidToken now st authNet with ⟨r, st1, k⟩
  have hc := getValidToken_caseID now st authNet
  rw [hg] at hc
  cases r with
  | error e => simpa using hc
  | ok t =>
    have hc1 : st1.caseID = st.caseID := by simpa using hc
    cases payload <;> cases net <;> (try simp) <;> (try split) <;> exact hc1

/-- Claim C9: a successful `CreateCase` call updates the session case-ID to
the decoded identifier exactly when that identifier is non-empty and leaves
it at its prior value otherwise, and apart from the case-ID the final state
is exactly the state the dispatch stage produced (the side effect touches
nothing else). -/
theorem CreateCase_session (now : Int) (st : ClientState) (authNet : HttpNet)
    (headers : Option CaseHeaders) (net : HttpNet) (result : Case)
    (st' : ClientState)
    (h : CreateCase now st authNet headers net = (Except.ok result, st')) :
    st' = { (doRequestWithHeaders now st authNet "POST"
              "/services/data/v64.0/sobjects/Case/" Payload.ok
              (caseReqHeaders headers) net).2 with
            caseID := if result.id ≠ "" then result.id
                      else (doRequestWithHeaders now st authNet "POST"
                              "/services/data/v64.0/sobjects/Case/" Payload.ok
                              (caseReqHeaders headers) net).2.caseID } ∧
    (doRequestWithHeaders now st authNet "POST"
        "/services/data/v64.0/sobjects/Case/" Payload.ok
        (caseReqHeaders headers) net).2.caseID = st.caseID := by
  refine ⟨?_, doRequestWithHeaders_caseID now st authNet "POST"
    "/services/data/v64.0/sobjects/Case/" Payload.ok
    (caseReqHeaders headers) net⟩
  unfold CreateCase at h
  rcases hD : doRequestWithHeaders now st authNet "POST"
      "/services/data/v64.0/sobjects/Case/" Payload.ok
      (caseReqHeaders headers) net with ⟨r, st1⟩
  rw [hD] at h
  cases r with
  | error e => exact absurd (congrArg Prod.fst h) (by simp)
  | ok resp =>
    by_cases hrf : resp.readFails = true
    · simp [hrf] at h
    · cases hdc : decodeCase resp.body.json with
      | none => simp [hrf, hdc] at h
      | some result0 =>
        by_cases hid : result0.id = ""
        · simp [hrf, hdc, hid] at h
          obtain ⟨h1, h2⟩ := h
          subst h1
          subst h2
          simp [hid]
        · simp [hrf, hdc, hid] at h
          obtain ⟨h1, h2⟩ := h
          subst h1
          subst h2
          simp [SetCaseID, hid]

/-- Concrete run of `CreateCase_session`: the provider answers
`{"id":"500X","success":true}` and the session case-ID becomes `"500X"`,
with nothing else changed. -/
theorem CreateCase_session_witness :
    (⟨"tok", "inst-url", 10 * nsPerMinute, "500X"⟩ : ClientState) =
      { (doRequestWithHeaders 0 stValid HttpNet.transportError "POST"
          "/services/data/v64.0/sobjects/Case/" Payload.ok
          (caseReqHeaders none)
          (HttpNet.response 201 "201 Created" false caseBody500X [])).2 with
        caseID := if case500X.id ≠ "" then case500X.id
                  else (doRequestWithHeaders 0 stValid HttpNet.transportError
                          "POST" "/services/data/v64.0/sobjects/Case/"
                          Payload.ok (caseReqHeaders none)
                          (HttpNet.response 201 "201 Created" false
                            caseBody500X [])).2.caseID } ∧
    (doRequestWithHeaders 0 stValid HttpNet.transportError "POST"
        "/services/data/v64.0/sobjects/Case/" Payload.ok (caseReqHeaders none)
        (HttpNet.response 201 "201 Created" false caseBody500X [])).2.caseID =
      stValid.caseID :=
  CreateCase_session 0 stValid HttpNet.transportError none
    (HttpNet.response 201 "201 Created" false caseBody500X []) case500X
    ⟨"tok", "inst-url", 10 * nsPerMinute, "500X"⟩ rfl

theorem CreateCase_caseID_cases (now : Int) (st : ClientState)
    (authNet : HttpNet) (headers : Option CaseHeaders) (net : HttpNet) :
    (CreateCase now st authNet headers net).2.caseID = st.caseID ∨
    (CreateCase now st authNet headers net).2.caseID ≠ "" := by
  unfold CreateCase
  rcases hD : doRequestWithHeaders now st authNet "POST"
      "/services/data/v64.0/sobjects/Case/" Payload.ok
      (caseReqHeaders headers) net with ⟨r, st1⟩
  have h1 : st1.caseID = st.caseID := by
    have := doRequestWithHeaders_caseID now st authNet "POST"
      "/services/data/v64.0/sobjects/Case/" Payload.ok
      (caseReqHeaders headers) net
    rw [hD] at this
    exact this
  cases r with
  | error e => exact Or.inl h1
  | ok resp =>
    by_cases hrf : resp.readFails = true
    · simp only [if_pos hrf]
      exact Or.inl h1
    · rw [Bool.not_eq_true] at hrf
      simp only [if_neg (by simp [hrf] : ¬resp.readFails = true)]
      cases hdc : decodeCase resp.body.json with
      | none => exact Or.inl h1
      | some result =>
        by_cases hid : result.id ≠ ""
        · simp only [if_pos hid]
          right
          simp [SetCaseID, hid]
        · simp only [if_neg hid]
          exact Or.inl h1

/-- Claim C10: calling `SetCaseID` with the empty string is a no-op, and
along every sequence of client operations (explicit `SetCaseID` calls and
`CreateCase` side effects) a session case-ID that is non-empty never
becomes empty again: the public interface offers no way to clear it. -/
theorem caseID_never_cleared :
    (∀ st : ClientState, SetCaseID st "" = st) ∧
    (∀ (ops : List ClientOp) (st : ClientState),
      st.caseID ≠ "" → (runOps st ops).caseID ≠ "") := by
  refine ⟨fun st => by simp [SetCaseID], ?_⟩
  intro ops
  induction ops with
  | nil => intro st h; exact h
  | cons op rest ih =>
    intro st h
    have hstep : (runOp st op).caseID ≠ "" := by
      cases op with
      | setCaseID s =>
        by_cases hs : s = ""
        · subst hs
          simpa [runOp, SetCaseID] using h
        · simp [runOp, SetCaseID, hs]
      | createCase now authNet headers net =>
        rcases CreateCase_caseID_cases now st authNet headers net with hA | hA
        · simpa [runOp, hA] using h
        · simpa [runOp] using hA
    simpa [runOps, List.foldl_cons] using ih (runOp st op) hstep

/-- Concrete run of `caseID_never_cleared`: after an attempted clearing
`SetCaseID ""`, the case-ID of a client holding `"caseA"` is still
non-empty. -/
theorem caseID_never_cleared_witness :
    (runOps stValid [ClientOp.setCaseID ""]).caseID ≠ "" :=
  caseID_never_cleared.2 [ClientOp.setCaseID ""] stValid (by decide)

end MyApiClient
